import Mathlib

/-!
Shallow embedding of the identifier-validation engine of
`API-Datas-Comemorativas/index.js` (CPF/CNPJ check-digit validators, email
validator, password evaluator, and the TTL result cache), together with
spec-level definitions of the weighted-sum-mod-11 check-digit rule, and
theorems settling the behavioural claims about the engine.

Modelling conventions:
* JS strings are modelled as Lean `String` / `List Char`; `s.length` counts
  code points (JS counts UTF-16 units — they agree on the BMP inputs the
  claims exercise).
* `String.prototype.toLowerCase` is modelled by `Char.toLower` (ASCII case
  mapping), and `trim` by dropping JS whitespace from both ends.
* `Date.now()` timestamps are `Nat` milliseconds.
* The SHA-256 cache fingerprint of `type + ":" + value` is modelled by the
  (injective) preimage string itself; the spec treats the digest as
  collision-free, so keying by the preimage is observationally the same map.
-/

/-- `parseInt` applied to a single decimal-digit character. -/
def charToDigit (c : Char) : Nat := c.toNat - 48

/-- JS number-to-string coercion for a single-digit number (the only case the
source exercises: check digits are always in 0..9).  Fallback for ≥ 10 is
arbitrary and unreachable at the call sites. -/
def digitChar : Nat → Char
  | 0 => '0' | 1 => '1' | 2 => '2' | 3 => '3' | 4 => '4'
  | 5 => '5' | 6 => '6' | 7 => '7' | 8 => '8' | 9 => '9'
  | _ => '0'

/-- The regex class `\d` = `[0-9]` (code points 48..57). -/
def isDigitChar (c : Char) : Bool := 48 ≤ c.toNat && c.toNat ≤ 57

/-- `onlyDigits` (index.js line 79): strips every non-digit character. -/
def onlyDigits (raw : String) : List Char := raw.data.filter isDigitChar

/-- `isRepeated` (index.js lines 80-82): the regex
`^(\d)\1{minLength-1,}$` — a single digit repeated to the end, total length
at least `minLength`. -/
def isRepeated (digits : List Char) (minLength : Nat) : Bool :=
  match digits with
  | [] => false
  | c :: rest => isDigitChar c && decide (minLength ≤ rest.length + 1)
      && rest.all (fun d => d == c)

/-- Result of the CPF/CNPJ validators: `{valid:true, normalized, digits}` or
`{valid:false, errors}`. -/
inductive IdResult where
  | valid (normalized : String) (digits : List Char)
  | invalid (errors : List String)
deriving DecidableEq

/-- The error list of an identifier validation result (empty when valid). -/
def IdResult.errors : IdResult → List String
  | .valid _ _ => []
  | .invalid es => es

def cpfLenErr : String := "CPF deve ter exatamente 11 dígitos"
def cpfRepErr : String := "CPF inválido (sequência repetida)"
def cnpjLenErr : String := "CNPJ deve ter exatamente 14 dígitos"
def cnpjRepErr : String := "CNPJ inválido (sequência repetida)"
def checkDigitErr : String := "Dígitos verificadores inválidos"

/-- CPF `calcCheckDigit` inner sum (index.js lines 108-112):
`for i in 0..base.length: sum += parseInt(base[i]) * (factor - i)`, written
as a recursion that decrements the weight.  At both call sites
`factor ≥ base.length`, so the `Nat` subtraction never saturates. -/
def weightedSumDesc : List Char → Nat → Nat
  | [], _ => 0
  | c :: rest, factor => charToDigit c * factor + weightedSumDesc rest (factor - 1)

/-- CPF `calcCheckDigit` (index.js lines 108-115). -/
def calcCheckDigit (base : List Char) (factor : Nat) : Nat :=
  let remainder := weightedSumDesc base factor % 11
  if remainder < 2 then 0 else 11 - remainder

/-- Normalized CPF rendering `XXX.XXX.XXX-YY` (index.js line 126). -/
def cpfNormalize (digits : List Char) : String :=
  String.mk (digits.take 3) ++ "." ++ String.mk ((digits.drop 3).take 3) ++ "."
    ++ String.mk ((digits.drop 6).take 3) ++ "-" ++ String.mk (digits.drop 9)

/-- Body of `validateCPF` after digit extraction (index.js lines 90-135),
parametrised by the extracted digit list. -/
def cpfCore (digits : List Char) : IdResult :=
  let errors :=
    (if digits.length ≠ 11 then [cpfLenErr] else []) ++
    (if isRepeated digits 11 then [cpfRepErr] else [])
  if errors.isEmpty then
    let base := digits.take 9
    let firstDigit := calcCheckDigit base 10
    let secondDigit := calcCheckDigit (base ++ [digitChar firstDigit]) 11
    if firstDigit = charToDigit (digits.getD 9 '0')
        ∧ secondDigit = charToDigit (digits.getD 10 '0') then
      IdResult.valid (cpfNormalize digits) digits
    else IdResult.invalid [checkDigitErr]
  else IdResult.invalid errors

/-- `validateCPF` (index.js lines 85-136), without the cache wrapper (the
cache layer is modelled separately below). -/
def validateCPF (raw : String) : IdResult := cpfCore (onlyDigits raw)

/-- CNPJ `calcCheckDigit` inner sum (index.js lines 161-165):
`for i in 0..factors.length: sum += parseInt(base[i]) * factors[i]`.
At both call sites `base.length = factors.length`, so the zip loses
nothing. -/
def calcCheckDigitW (base : List Char) (factors : List Nat) : Nat :=
  let sum := ((base.zip factors).map (fun p => charToDigit p.1 * p.2)).sum
  let remainder := sum % 11
  if remainder < 2 then 0 else 11 - remainder

def cnpjFactors1 : List Nat := [5, 4, 3, 2, 9, 8, 7, 6, 5, 4, 3, 2]
def cnpjFactors2 : List Nat := [6, 5, 4, 3, 2, 9, 8, 7, 6, 5, 4, 3, 2]

/-- Normalized CNPJ rendering `XX.XXX.XXX/XXXX-YY` (index.js line 182). -/
def cnpjNormalize (digits : List Char) : String :=
  String.mk (digits.take 2) ++ "." ++ String.mk ((digits.drop 2).take 3) ++ "."
    ++ String.mk ((digits.drop 5).take 3) ++ "/" ++ String.mk ((digits.drop 8).take 4)
    ++ "-" ++ String.mk (digits.drop 12)

/-- Body of `validateCNPJ` after digit extraction (index.js lines 144-191). -/
def cnpjCore (digits : List Char) : IdResult :=
  let errors :=
    (if digits.length ≠ 14 then [cnpjLenErr] else []) ++
    (if isRepeated digits 14 then [cnpjRepErr] else [])
  if errors.isEmpty then
    let base := digits.take 12
    let firstDigit := calcCheckDigitW base cnpjFactors1
    let secondDigit := calcCheckDigitW (base ++ [digitChar firstDigit]) cnpjFactors2
    if firstDigit = charToDigit (digits.getD 12 '0')
        ∧ secondDigit = charToDigit (digits.getD 13 '0') then
      IdResult.valid (cnpjNormalize digits) digits
    else IdResult.invalid [checkDigitErr]
  else IdResult.invalid errors

/-- `validateCNPJ` (index.js lines 139-192), without the cache wrapper. -/
def validateCNPJ (raw : String) : IdResult := cnpjCore (onlyDigits raw)

/-- Spec-side check-digit primitive, following §4.2 of the specification:
"computes `sum(digit[i] * weight[i]) mod 11`; if remainder < 2, check digit
is 0, else `11 - remainder`". -/
def weightedCheckDigit (baseDigits : List Nat) (weights : List Nat) : Nat :=
  let r := ((baseDigits.zip weights).map (fun p => p.1 * p.2)).sum % 11
  if r < 2 then 0 else 11 - r

/-- Spec-side first check digit of the 11-digit scheme: weighted sum of the
9-digit base with descending weights 10..2. -/
def cpfSpecDigit1 (ds : List Nat) : Nat :=
  weightedCheckDigit (ds.take 9) [10, 9, 8, 7, 6, 5, 4, 3, 2]

/-- Spec-side second check digit of the 11-digit scheme: computed over the
base plus the first check digit, descending weights 11..2. -/
def cpfSpecDigit2 (ds : List Nat) : Nat :=
  weightedCheckDigit (ds.take 9 ++ [cpfSpecDigit1 ds]) [11, 10, 9, 8, 7, 6, 5, 4, 3, 2]

/-- Spec-side first check digit of the 14-digit scheme. -/
def cnpjSpecDigit1 (ds : List Nat) : Nat :=
  weightedCheckDigit (ds.take 12) [5, 4, 3, 2, 9, 8, 7, 6, 5, 4, 3, 2]

/-- Spec-side second check digit of the 14-digit scheme. -/
def cnpjSpecDigit2 (ds : List Nat) : Nat :=
  weightedCheckDigit (ds.take 12 ++ [cnpjSpecDigit1 ds]) [6, 5, 4, 3, 2, 9, 8, 7, 6, 5, 4, 3, 2]

/-- The JS regex class `\s` (whitespace, including line terminators), used by
`trim` and by the password leading/trailing-space check. -/
def isJsSpace (c : Char) : Bool :=
  c == ' ' || c == '\t' || c == '\n' || c == '\r' || c == '\x0b' || c == '\x0c'
    || c == '\u00A0' || c == '\u1680' || ('\u2000' ≤ c && c ≤ '\u200A')
    || c == '\u2028' || c == '\u2029' || c == '\u202F' || c == '\u205F'
    || c == '\u3000' || c == '\uFEFF'

/-- JS `String.prototype.trim`: drop `\s` characters from both ends. -/
def jsTrim (l : List Char) : List Char :=
  ((l.dropWhile isJsSpace).reverse.dropWhile isJsSpace).reverse

/-- JS `s.split(sep)` for a single-character separator: splits at every
occurrence; always returns at least one (possibly empty) group. -/
def splitOnChar (sep : Char) : List Char → List (List Char)
  | [] => [[]]
  | c :: rest =>
    match splitOnChar sep rest with
    | [] => [[]]
    | grp :: grps => if c = sep then [] :: grp :: grps else (c :: grp) :: grps

/-- The regex class `[a-zA-Z0-9]`. -/
def isAlnumChar (c : Char) : Bool :=
  (48 ≤ c.toNat && c.toNat ≤ 57) || (65 ≤ c.toNat && c.toNat ≤ 90)
    || (97 ≤ c.toNat && c.toNat ≤ 122)

/-- The punctuation admitted by the email regex local-part class
(index.js line 211), i.e. `.!#$%&'*+/=?^_` backtick `{|}~-`. -/
def emailLocalSpecials : List Char := ".!#$%&\x27*+/=?^_\x60\x7b|\x7d~-".data

/-- One character of the email regex local-part class. -/
def isLocalChar (c : Char) : Bool := isAlnumChar c || emailLocalSpecials.contains c

/-- One domain label of the email regex:
`[a-zA-Z0-9](?:[a-zA-Z0-9-]{0,61}[a-zA-Z0-9])?` — length 1..63, first and
last characters alphanumeric, interior characters alphanumeric or `-`. -/
def matchLabel (l : List Char) : Bool :=
  match l with
  | [] => false
  | c :: rest =>
    isAlnumChar c && decide (rest.length ≤ 62)
      && rest.all (fun d => isAlnumChar d || d == '-')
      && isAlnumChar (rest.getLastD c)

/-- The email structural regex (index.js line 211): local part from the
restricted class, exactly one `@` (neither class contains `@`), and a domain
of dot-separated labels. -/
def emailRegexMatch (s : List Char) : Bool :=
  match splitOnChar '@' s with
  | [lp, dom] =>
    !lp.isEmpty && lp.all isLocalChar && (splitOnChar '.' dom).all matchLabel
  | _ => false

/-- Result of `validateEmail`: `{valid:true, normalized}` or
`{valid:false, errors}`. -/
inductive EmailResult where
  | valid (normalized : List Char)
  | invalid (errors : List String)
deriving DecidableEq

/-- The error list of an email validation result (empty when valid). -/
def EmailResult.errors : EmailResult → List String
  | .valid _ => []
  | .invalid es => es

def emailEmptyErr : String := "E-mail não informado"
def emailTooLongErr : String := "E-mail muito longo"
def emailFormatErr : String := "Formato de e-mail inválido"
def emailLocalLongErr : String := "Parte local do e-mail muito longa"

/-- `s.trim().toLowerCase()` (index.js line 201), at the ASCII case mapping. -/
def emailNormalize (raw : String) : List Char := (jsTrim raw.data).map Char.toLower

/-- `s.split('@')[0]`: the part before the first `@`; the whole string when
no `@` occurs (JS `split` always yields a first element). -/
def localPartOf (s : List Char) : List Char := (splitOnChar '@' s).headD []

/-- Body of `validateEmail` after normalization (index.js lines 200-231).
The source function is `async` but performs no I/O; it is modelled as the
pure function it computes. -/
def emailCore (s : List Char) : EmailResult :=
  let errors :=
    (if s.isEmpty then [emailEmptyErr] else []) ++
    (if 254 < s.length then [emailTooLongErr] else []) ++
    (if emailRegexMatch s then [] else [emailFormatErr]) ++
    (if 64 < (localPartOf s).length then [emailLocalLongErr] else [])
  if errors.isEmpty then EmailResult.valid s else EmailResult.invalid errors

/-- `validateEmail` (index.js lines 195-232), without the cache wrapper. -/
def validateEmail (raw : String) : EmailResult := emailCore (emailNormalize raw)

/-- The password policy object accepted by `validatePassword`; absent fields
fall back to the documented defaults (index.js lines 239-248). -/
structure PasswordPolicy where
  minLength : Option Nat := none
  maxLength : Option Nat := none
  upper : Option Bool := none
  lower : Option Bool := none
  number : Option Bool := none
  symbol : Option Bool := none
  forbidCommon : Option Bool := none
  maxConsecutive : Option Nat := none

/-- The resolved configuration (`config`, index.js lines 239-248). -/
structure PasswordConfig where
  minLength : Nat
  maxLength : Nat
  requireUpper : Bool
  requireLower : Bool
  requireNumber : Bool
  requireSymbol : Bool
  forbidCommon : Bool
  maxConsecutive : Nat

/-- Default-filling of the policy (the `??` chains, index.js lines 239-248). -/
def configOf (p : PasswordPolicy) : PasswordConfig :=
  { minLength := p.minLength.getD 8
    maxLength := p.maxLength.getD 128
    requireUpper := p.upper.getD true
    requireLower := p.lower.getD true
    requireNumber := p.number.getD true
    requireSymbol := p.symbol.getD true
    forbidCommon := p.forbidCommon.getD true
    maxConsecutive := p.maxConsecutive.getD 3 }

/-- The closed set of password violation kinds, one per `errors.push` site of
`validatePassword`; the two parametrised kinds record the configured value
that the source interpolates into the message text. -/
inductive PassErr where
  | tooShort (minLength : Nat)
  | tooLong (maxLength : Nat)
  | noUpper
  | noLower
  | noNumber
  | noSymbol
  | consecutive (maxConsecutive : Nat)
  | commonPassword
  | edgeWhitespace
deriving DecidableEq

/-- The message text the source pushes for each violation kind (ties each
`PassErr` tag to its index.js string; the rendering is injective). -/
def passErrMessage : PassErr → String
  | .tooShort n => "Senha deve ter no mínimo " ++ toString n ++ " caracteres"
  | .tooLong n => "Senha deve ter no máximo " ++ toString n ++ " caracteres"
  | .noUpper => "Deve conter pelo menos 1 letra maiúscula"
  | .noLower => "Deve conter pelo menos 1 letra minúscula"
  | .noNumber => "Deve conter pelo menos 1 número"
  | .noSymbol => "Deve conter pelo menos 1 símbolo"
  | .consecutive n => "Não pode ter mais de " ++ toString n
      ++ " caracteres consecutivos iguais"
  | .commonPassword => "Senha muito comum"
  | .edgeWhitespace => "Não pode iniciar ou terminar com espaço"

/-- Whether a violation is the consecutive-repetition one. -/
def isConsecutiveErr : PassErr → Bool
  | .consecutive _ => true
  | _ => false

/-- The regex class `[A-Z]`. -/
def isUpperChar (c : Char) : Bool := 65 ≤ c.toNat && c.toNat ≤ 90

/-- The regex class `[a-z]`. -/
def isLowerChar (c : Char) : Bool := 97 ≤ c.toNat && c.toNat ≤ 122

/-- The password symbol class (index.js line 270). -/
def passwordSymbols : List Char :=
  "!@#$%^&*(),.?\x22:\x7b\x7d|<>_-+=[]\\;/\x60\x27~".data

def hasUpper (l : List Char) : Bool := l.any isUpperChar
def hasLower (l : List Char) : Bool := l.any isLowerChar
def hasDigit (l : List Char) : Bool := l.any isDigitChar
def hasSymbolChar (l : List Char) : Bool := l.any (fun c => passwordSymbols.contains c)
def hasNonAlnum (l : List Char) : Bool := l.any (fun c => !isAlnumChar c)

/-- JS line terminators, which the regex `.` does not match. -/
def isLineTerminator (c : Char) : Bool :=
  c == '\n' || c == '\r' || c == '\u2028' || c == '\u2029'

/-- The regex `/(.)\1{2,}/` (index.js line 275): some character, not a line
terminator (the dot excludes line terminators), immediately followed by at
least two more copies of itself. -/
def hasTripleRun : List Char → Bool
  | a :: b :: c :: rest =>
    (!isLineTerminator a && a == b && b == c) || hasTripleRun (b :: c :: rest)
  | _ => false

/-- The common-password denylist (index.js lines 280-283). -/
def commonPasswords : List String :=
  ["123456", "password", "123456789", "qwerty", "abc123",
   "111111", "123123", "senha", "admin", "iloveyou"]

/-- The regex `/^\s|\s$/`: first or last character is whitespace. -/
def startsOrEndsWithSpace (l : List Char) : Bool :=
  match l with
  | [] => false
  | c :: rest => isJsSpace c || isJsSpace (rest.getLastD c)

/-- Password strength (index.js lines 295-299): +2 if length ≥ 12, +1 if
both cases present, +1 if a digit present, +2 if any non-alphanumeric. -/
def passwordStrength (l : List Char) : Nat :=
  (if 12 ≤ l.length then 2 else 0)
    + (if hasUpper l && hasLower l then 1 else 0)
    + (if hasDigit l then 1 else 0)
    + (if hasNonAlnum l then 2 else 0)

/-- Result of `validatePassword`: both shapes carry `strength` and `length`
(index.js lines 301-303). -/
inductive PassResult where
  | valid (strength : Nat) (length : Nat)
  | invalid (errors : List PassErr) (strength : Nat) (length : Nat)
deriving DecidableEq

/-- The strength carried by a password result. -/
def PassResult.strength : PassResult → Nat
  | .valid st _ => st
  | .invalid _ st _ => st

/-- The length carried by a password result. -/
def PassResult.length : PassResult → Nat
  | .valid _ n => n
  | .invalid _ _ n => n

/-- The violation list of a password result (empty when valid). -/
def PassResult.errors : PassResult → List PassErr
  | .valid _ _ => []
  | .invalid es _ _ => es

/-- `validatePassword` (index.js lines 235-306).  Never consults the result
cache.  Checks run in source order; each appends its violation. -/
def validatePassword (raw : String) (policy : PasswordPolicy) : PassResult :=
  let s := raw.data
  let config := configOf policy
  let errors :=
    (if s.length < config.minLength then [PassErr.tooShort config.minLength] else []) ++
    (if config.maxLength < s.length then [PassErr.tooLong config.maxLength] else []) ++
    (if config.requireUpper && !hasUpper s then [PassErr.noUpper] else []) ++
    (if config.requireLower && !hasLower s then [PassErr.noLower] else []) ++
    (if config.requireNumber && !hasDigit s then [PassErr.noNumber] else []) ++
    (if config.requireSymbol && !hasSymbolChar s then [PassErr.noSymbol] else []) ++
    (if hasTripleRun s then [PassErr.consecutive config.maxConsecutive] else []) ++
    (if config.forbidCommon && commonPasswords.contains (String.mk (s.map Char.toLower))
      then [PassErr.commonPassword] else []) ++
    (if startsOrEndsWithSpace s then [PassErr.edgeWhitespace] else [])
  let strength := passwordStrength s
  if errors.isEmpty then PassResult.valid strength s.length
  else PassResult.invalid errors strength s.length

/-- A cached validation outcome of any kind. -/
inductive ValResult where
  | id (r : IdResult)
  | email (r : EmailResult)
  | pass (r : PassResult)
deriving DecidableEq

/-- `{ result, timestamp }` as stored in `validationCache` (index.js
lines 103, 134, 190, 225, 230). -/
structure CacheEntry where
  result : ValResult
  timestamp : Nat
deriving DecidableEq

/-- The `validationCache` map, as an association list; `Map.set` is modelled
by prepending (lookup finds the most recent binding first). -/
abbrev Cache := List (String × CacheEntry)

/-- `CACHE_TTL` (index.js line 61): 5 minutes in milliseconds. -/
def CACHE_TTL : Nat := 5 * 60 * 1000

/-- `getCacheKey` (index.js lines 63-65): the SHA-256 digest of
`type + ":" + value`, modelled by the injective preimage string. -/
def getCacheKey (type value : String) : String := type ++ ":" ++ value

/-- `clearExpiredCache` (index.js lines 67-74): delete every entry with
`now - timestamp > CACHE_TTL`. -/
def clearExpiredCache (now : Nat) (cache : Cache) : Cache :=
  List.filter (fun kv => !decide (CACHE_TTL < now - kv.2.timestamp)) cache

/-- The cache read/compute/store pattern shared by `validateCPF`,
`validateCNPJ` and `validateEmail` (index.js lines 86-88/103/134 etc.):
a present entry is returned as-is — with no check of its age — otherwise the
underlying validator runs and its result is stored with the current
timestamp.  The returned Bool records whether the underlying computation
ran. -/
def cachedValidation (key : String) (compute : Unit → ValResult)
    (cache : Cache) (now : Nat) : ValResult × Cache × Bool :=
  match List.lookup key cache with
  | some e => (e.result, cache, false)
  | none =>
    let r := compute ()
    (r, (key, ⟨r, now⟩) :: cache, true)

/-- `validateCPF` with its cache wrapper (index.js lines 85-136). -/
def validateCPFCached (raw : String) (cache : Cache) (now : Nat) :
    ValResult × Cache × Bool :=
  cachedValidation (getCacheKey "cpf" raw) (fun _ => ValResult.id (validateCPF raw)) cache now

/-- `validateCNPJ` with its cache wrapper (index.js lines 139-192). -/
def validateCNPJCached (raw : String) (cache : Cache) (now : Nat) :
    ValResult × Cache × Bool :=
  cachedValidation (getCacheKey "cnpj" raw) (fun _ => ValResult.id (validateCNPJ raw)) cache now

/-- `validateEmail` with its cache wrapper (index.js lines 195-232). -/
def validateEmailCached (raw : String) (cache : Cache) (now : Nat) :
    ValResult × Cache × Bool :=
  cachedValidation (getCacheKey "email" raw) (fun _ => ValResult.email (validateEmail raw)) cache now

/-- `validatePassword` as invoked by the endpoints (index.js lines 412,
465): the password validator has no cache read or write, so every call runs
the computation (flag always `true`) and leaves the cache untouched. -/
def validatePasswordCall (raw : String) (policy : PasswordPolicy)
    (cache : Cache) : ValResult × Cache × Bool :=
  (ValResult.pass (validatePassword raw policy), cache, true)

/-- The per-kind dispatch of the batch endpoint (index.js lines 454-469),
restricted to the four supported kinds (`none` for any other kind). -/
def validateDispatch (kind value : String) (policy : PasswordPolicy)
    (cache : Cache) (now : Nat) : Option (ValResult × Cache × Bool) :=
  if kind = "cpf" then some (validateCPFCached value cache now)
  else if kind = "cnpj" then some (validateCNPJCached value cache now)
  else if kind = "email" then some (validateEmailCached value cache now)
  else if kind = "password" then some (validatePasswordCall value policy cache)
  else none

example : validateCPF "529.982.247-25" = IdResult.valid "529.982.247-25" "52998224725".data := by decide
example : validateCPF "52998224726" = IdResult.invalid [checkDigitErr] := by decide
example : validateCPF "11111111111" = IdResult.invalid [cpfRepErr] := by decide
example : validateCNPJ "11.222.333/0001-81" = IdResult.valid "11.222.333/0001-81" "11222333000181".data := by decide
example : validateCNPJ "11222333000182" = IdResult.invalid [checkDigitErr] := by decide

/-! ### Cache lemmas -/

theorem cachedValidation_miss (key : String) (f : Unit → ValResult)
    (cache : Cache) (now : Nat) (h : List.lookup key cache = none) :
    cachedValidation key f cache now = (f (), (key, ⟨f (), now⟩) :: cache, true) := by
  simp [cachedValidation, h]

theorem cachedValidation_hit (key : String) (f : Unit → ValResult)
    (cache : Cache) (now : Nat) (e : CacheEntry)
    (h : List.lookup key cache = some e) :
    cachedValidation key f cache now = (e.result, cache, false) := by
  simp [cachedValidation, h]

theorem lookup_cons_self (key : String) (e : CacheEntry) (c : Cache) :
    List.lookup key ((key, e) :: c) = some e := by
  simp [List.lookup]

/-- Claim C1, counterexample.  A CPF result cached at time 0 is still served
at time 300001 ms — one millisecond past the 5-minute TTL — because the read
path (index.js line 88) never inspects the entry's timestamp: the third
component `false` records that the entry was served from the cache rather
than treated as absent. -/
theorem cache_ttl_read_counterexample :
    validateCPFCached "52998224725" [] 0 =
      (ValResult.id (validateCPF "52998224725"),
       [(getCacheKey "cpf" "52998224725",
         ⟨ValResult.id (validateCPF "52998224725"), 0⟩)], true) ∧
    validateCPFCached "52998224725"
        [(getCacheKey "cpf" "52998224725",
          ⟨ValResult.id (validateCPF "52998224725"), 0⟩)] 300001 =
      (ValResult.id (validateCPF "52998224725"),
       [(getCacheKey "cpf" "52998224725",
         ⟨ValResult.id (validateCPF "52998224725"), 0⟩)], false) := by
  constructor <;> decide

/-- Claim C1, amended.  The sweep `clearExpiredCache` removes every entry
whose age at sweep time exceeds the TTL: any entry still found by a lookup
after a sweep at time `now` is at most `CACHE_TTL` old. -/
theorem cache_sweep_ttl_bound (cache : Cache) (now : Nat) (key : String)
    (e : CacheEntry)
    (h : List.lookup key (clearExpiredCache now cache) = some e) :
    now - e.timestamp ≤ CACHE_TTL := by
  induction cache with
  | nil => simp [clearExpiredCache] at h
  | cons kv rest ih =>
    obtain ⟨k, e'⟩ := kv
    by_cases hp : CACHE_TTL < now - e'.timestamp
    · have hrw : clearExpiredCache now ((k, e') :: rest) = clearExpiredCache now rest := by
        simp [clearExpiredCache, List.filter, hp]
      rw [hrw] at h
      exact ih h
    · have hrw : clearExpiredCache now ((k, e') :: rest)
          = (k, e') :: clearExpiredCache now rest := by
        simp [clearExpiredCache, List.filter, hp]
      rw [hrw] at h
      by_cases hk : key = k
      · subst hk
        rw [lookup_cons_self] at h
        cases h
        omega
      · have : (key == k) = false := beq_false_of_ne hk
        simp [List.lookup, this] at h
        exact ih h

theorem cache_sweep_ttl_bound_witness :
    (100 : Nat)
        - (⟨ValResult.pass (validatePassword "Abcdef1!" {}), 0⟩ : CacheEntry).timestamp
      ≤ CACHE_TTL :=
  cache_sweep_ttl_bound
    [("k", ⟨ValResult.pass (validatePassword "Abcdef1!" {}), 0⟩)] 100 "k"
    ⟨ValResult.pass (validatePassword "Abcdef1!" {}), 0⟩ (by decide)

/-- Claim C2, counterexample.  Password validation never consults the result
cache: two identical calls both run the computation (flag `true` twice) and
leave the cache empty, so the underlying computation is performed twice, not
once. -/
theorem cache_idempotence_counterexample :
    validateDispatch "password" "Abcdef1!" {} [] 0 =
      some (ValResult.pass (validatePassword "Abcdef1!" {}), [], true) ∧
    validateDispatch "password" "Abcdef1!" {} [] 1 =
      some (ValResult.pass (validatePassword "Abcdef1!" {}), [], true) :=
  ⟨rfl, rfl⟩

/-- Claim C2, amended.  For the cached kinds — cpf, cnpj and email — a call
on a cache without the key runs the computation once, and an immediately
repeated call returns the identical stored result from the cache with no
recomputation. -/
theorem cache_idempotence_amended (kind raw : String) (p : PasswordPolicy)
    (cache : Cache) (t1 t2 : Nat) (r : ValResult) (c1 : Cache) (b : Bool)
    (hk : kind = "cpf" ∨ kind = "cnpj" ∨ kind = "email")
    (hmiss : List.lookup (getCacheKey kind raw) cache = none)
    (hcall : validateDispatch kind raw p cache t1 = some (r, c1, b)) :
    b = true ∧ validateDispatch kind raw p c1 t2 = some (r, c1, false) := by
  rcases hk with rfl | rfl | rfl
  · simp only [validateDispatch, if_pos rfl, validateCPFCached] at hcall ⊢
    rw [cachedValidation_miss _ _ _ _ hmiss] at hcall
    obtain ⟨rfl, rfl, rfl⟩ : r = _ ∧ c1 = _ ∧ b = true := by
      simpa [and_assoc] using hcall.symm
    rw [cachedValidation_hit _ _ _ _ _ (lookup_cons_self _ _ _)]
    exact ⟨rfl, rfl⟩
  · simp only [validateDispatch, if_neg (by decide : ¬ ("cnpj" = "cpf")),
      if_pos rfl, validateCNPJCached] at hcall ⊢
    rw [cachedValidation_miss _ _ _ _ hmiss] at hcall
    obtain ⟨rfl, rfl, rfl⟩ : r = _ ∧ c1 = _ ∧ b = true := by
      simpa [and_assoc] using hcall.symm
    rw [cachedValidation_hit _ _ _ _ _ (lookup_cons_self _ _ _)]
    exact ⟨rfl, rfl⟩
  · simp only [validateDispatch, if_neg (by decide : ¬ ("email" = "cpf")),
      if_neg (by decide : ¬ ("email" = "cnpj")), if_pos rfl,
      validateEmailCached] at hcall ⊢
    rw [cachedValidation_miss _ _ _ _ hmiss] at hcall
    obtain ⟨rfl, rfl, rfl⟩ : r = _ ∧ c1 = _ ∧ b = true := by
      simpa [and_assoc] using hcall.symm
    rw [cachedValidation_hit _ _ _ _ _ (lookup_cons_self _ _ _)]
    exact ⟨rfl, rfl⟩

theorem cache_idempotence_amended_witness :
    true = true ∧
    validateDispatch "cpf" "52998224725" {}
        [(getCacheKey "cpf" "52998224725",
          ⟨ValResult.id (validateCPF "52998224725"), 0⟩)] 7 =
      some (ValResult.id (validateCPF "52998224725"),
        [(getCacheKey "cpf" "52998224725",
          ⟨ValResult.id (validateCPF "52998224725"), 0⟩)], false) :=
  cache_idempotence_amended "cpf" "52998224725" {} [] 0 7
    (ValResult.id (validateCPF "52998224725"))
    [(getCacheKey "cpf" "52998224725",
      ⟨ValResult.id (validateCPF "52998224725"), 0⟩)] true
    (Or.inl rfl) rfl rfl

/-! ### Normalizer lemmas -/

theorem onlyDigits_all (raw : String) :
    ∀ c ∈ onlyDigits raw, isDigitChar c = true := by
  intro c hc
  exact (List.mem_filter.mp hc).2

theorem isRepeated_replicate (c : Char) (n m : Nat) (hc : isDigitChar c = true)
    (hn : 0 < n) (hm : m ≤ n) : isRepeated (List.replicate n c) m = true := by
  cases n with
  | zero => omega
  | succ k =>
    rw [List.replicate_succ]
    simp only [isRepeated, hc, Bool.true_and, Bool.and_eq_true, decide_eq_true_eq,
      List.all_eq_true, List.length_replicate]
    refine ⟨by omega, ?_⟩
    intro d hd
    simp [List.eq_of_mem_replicate hd]

/-! ### Claim C6: repeated sequences at exactly the required length -/

theorem cpfCore_replicate (c : Char) (hc : isDigitChar c = true) :
    cpfCore (List.replicate 11 c) = IdResult.invalid [cpfRepErr] := by
  have h2 : isRepeated (List.replicate 11 c) 11 = true :=
    isRepeated_replicate c 11 11 hc (by omega) le_rfl
  rw [show List.replicate 11 c = [c, c, c, c, c, c, c, c, c, c, c] from rfl] at h2 ⊢
  simp [cpfCore, h2]

theorem cnpjCore_replicate (c : Char) (hc : isDigitChar c = true) :
    cnpjCore (List.replicate 14 c) = IdResult.invalid [cnpjRepErr] := by
  have h2 : isRepeated (List.replicate 14 c) 14 = true :=
    isRepeated_replicate c 14 14 hc (by omega) le_rfl
  rw [show List.replicate 14 c = [c, c, c, c, c, c, c, c, c, c, c, c, c, c] from rfl] at h2 ⊢
  simp [cnpjCore, h2]

/-- Claim C6.  An input whose digit sequence is a single digit repeated
exactly 11 times (resp. 14 times) is rejected by `validateCPF`
(resp. `validateCNPJ`) with exactly the repeated-sequence error — in
particular the result never contains the check-digit error. -/
theorem repeated_sequence_rejected (rawA rawB : String) (c d : Char)
    (hA : onlyDigits rawA = List.replicate 11 c)
    (hB : onlyDigits rawB = List.replicate 14 d) :
    validateCPF rawA = IdResult.invalid [cpfRepErr] ∧
    validateCNPJ rawB = IdResult.invalid [cnpjRepErr] := by
  constructor
  · have hc : isDigitChar c = true := by
      refine onlyDigits_all rawA c ?_
      rw [hA]
      exact List.mem_replicate.mpr ⟨by omega, rfl⟩
    rw [validateCPF, hA]
    exact cpfCore_replicate c hc
  · have hd : isDigitChar d = true := by
      refine onlyDigits_all rawB d ?_
      rw [hB]
      exact List.mem_replicate.mpr ⟨by omega, rfl⟩
    rw [validateCNPJ, hB]
    exact cnpjCore_replicate d hd

theorem repeated_sequence_rejected_witness :
    validateCPF "11111111111" = IdResult.invalid [cpfRepErr] ∧
    validateCNPJ "22222222222222" = IdResult.invalid [cnpjRepErr] :=
  repeated_sequence_rejected "11111111111" "22222222222222" '1' '2'
    (by decide) (by decide)

/-! ### Claim C5: format errors accumulate and exclude the checksum error -/

theorem cpfCore_clean (digits : List Char) (hlen : digits.length = 11)
    (hrep : isRepeated digits 11 = false) :
    cpfCore digits = IdResult.valid (cpfNormalize digits) digits ∨
    cpfCore digits = IdResult.invalid [checkDigitErr] := by
  simp only [cpfCore, hlen, hrep]
  simp only [ne_eq, not_true_eq_false, if_false, if_neg Bool.false_ne_true,
    List.nil_append, List.isEmpty_nil, if_true]
  split
  · exact Or.inl rfl
  · exact Or.inr rfl

theorem cnpjCore_clean (digits : List Char) (hlen : digits.length = 14)
    (hrep : isRepeated digits 14 = false) :
    cnpjCore digits = IdResult.valid (cnpjNormalize digits) digits ∨
    cnpjCore digits = IdResult.invalid [checkDigitErr] := by
  simp only [cnpjCore, hlen, hrep]
  simp only [ne_eq, not_true_eq_false, if_false, if_neg Bool.false_ne_true,
    List.nil_append, List.isEmpty_nil, if_true]
  split
  · exact Or.inl rfl
  · exact Or.inr rfl

/-- Claim C5.  For both identifier validators: every applicable format error
(wrong length, repeated sequence) appears in the result, and the check-digit
error never coexists with a format error in one result. -/
theorem format_checksum_exclusion (raw : String) :
    (((onlyDigits raw).length ≠ 11 → cpfLenErr ∈ (validateCPF raw).errors) ∧
     (isRepeated (onlyDigits raw) 11 = true → cpfRepErr ∈ (validateCPF raw).errors) ∧
     ¬(checkDigitErr ∈ (validateCPF raw).errors ∧
        (cpfLenErr ∈ (validateCPF raw).errors ∨ cpfRepErr ∈ (validateCPF raw).errors))) ∧
    (((onlyDigits raw).length ≠ 14 → cnpjLenErr ∈ (validateCNPJ raw).errors) ∧
     (isRepeated (onlyDigits raw) 14 = true → cnpjRepErr ∈ (validateCNPJ raw).errors) ∧
     ¬(checkDigitErr ∈ (validateCNPJ raw).errors ∧
        (cnpjLenErr ∈ (validateCNPJ raw).errors ∨ cnpjRepErr ∈ (validateCNPJ raw).errors))) := by
  constructor
  · by_cases hlen : (onlyDigits raw).length = 11
    · by_cases hrep : isRepeated (onlyDigits raw) 11 = true
      · simp only [validateCPF, cpfCore, hlen, hrep]
        simp
        decide
      · rcases cpfCore_clean (onlyDigits raw) hlen (by simpa using hrep) with h | h
        · simp [validateCPF, h, hlen, hrep, IdResult.errors]
        · simp only [validateCPF, h, hlen, hrep]
          simp [hlen, hrep]
          decide
    · by_cases hrep : isRepeated (onlyDigits raw) 11 = true <;>
        · simp only [validateCPF, cpfCore, hlen, hrep]
          simp [hlen, hrep]
          decide
  · by_cases hlen : (onlyDigits raw).length = 14
    · by_cases hrep : isRepeated (onlyDigits raw) 14 = true
      · simp only [validateCNPJ, cnpjCore, hlen, hrep]
        simp
        decide
      · rcases cnpjCore_clean (onlyDigits raw) hlen (by simpa using hrep) with h | h
        · simp [validateCNPJ, h, hlen, hrep, IdResult.errors]
        · simp only [validateCNPJ, h, hlen, hrep]
          simp [hlen, hrep]
          decide
    · by_cases hrep : isRepeated (onlyDigits raw) 14 = true <;>
        · simp only [validateCNPJ, cnpjCore, hlen, hrep]
          simp [hlen, hrep]
          decide

/-! ### Claim C8: strength is always computed and carried -/

theorem PassResult.strength_ite (c : Prop) [Decidable c] (E : List PassErr)
    (s n : Nat) :
    (if c then PassResult.valid s n else PassResult.invalid E s n).strength = s := by
  split <;> rfl

theorem PassResult.length_ite (c : Prop) [Decidable c] (E : List PassErr)
    (s n : Nat) :
    (if c then PassResult.valid s n else PassResult.invalid E s n).length = n := by
  split <;> rfl

/-- Claim C8.  The strength score is exactly the +2/+1/+1/+2 rule, is always
between 0 and 6, and both strength and input length are carried by the
result whether it is valid or invalid. -/
theorem password_strength_always (raw : String) (p : PasswordPolicy) :
    (validatePassword raw p).strength
        = (if 12 ≤ raw.data.length then 2 else 0)
          + (if hasUpper raw.data && hasLower raw.data then 1 else 0)
          + (if hasDigit raw.data then 1 else 0)
          + (if hasNonAlnum raw.data then 2 else 0) ∧
    (validatePassword raw p).strength ≤ 6 ∧
    (validatePassword raw p).length = raw.length := by
  have hst : (validatePassword raw p).strength = passwordStrength raw.data := by
    simp only [validatePassword]
    exact PassResult.strength_ite _ _ _ _
  have hln : (validatePassword raw p).length = raw.data.length := by
    simp only [validatePassword]
    exact PassResult.length_ite _ _ _ _
  refine ⟨by rw [hst]; rfl, ?_, by rw [hln]; rfl⟩
  rw [hst]
  unfold passwordStrength
  split_ifs <;> omega

/-! ### Claim C7: email error accumulation -/

theorem emailCore_errors_iff (s : List Char) :
    (emailEmptyErr ∈ (emailCore s).errors ↔ s = []) ∧
    (emailTooLongErr ∈ (emailCore s).errors ↔ 254 < s.length) ∧
    (emailFormatErr ∈ (emailCore s).errors ↔ emailRegexMatch s = false) ∧
    (emailLocalLongErr ∈ (emailCore s).errors ↔ 64 < (localPartOf s).length) := by
  by_cases h1 : s.isEmpty <;> by_cases h2 : 254 < s.length <;>
    by_cases h3 : emailRegexMatch s <;> by_cases h4 : 64 < (localPartOf s).length <;>
    simp_all [emailCore, EmailResult.errors, List.isEmpty_iff,
      emailEmptyErr, emailTooLongErr, emailFormatErr, emailLocalLongErr]

/-- Claim C7.  After trimming and lower-casing, `validateEmail` reports the
empty-input, overall-length (> 254), structural-pattern and local-part-length
(> 64) errors, and each of the four appears in the result exactly when its
condition holds — all applicable errors are collected, not just the first. -/
theorem email_error_accumulation (raw : String) :
    (emailEmptyErr ∈ (validateEmail raw).errors ↔ emailNormalize raw = []) ∧
    (emailTooLongErr ∈ (validateEmail raw).errors ↔ 254 < (emailNormalize raw).length) ∧
    (emailFormatErr ∈ (validateEmail raw).errors ↔ emailRegexMatch (emailNormalize raw) = false) ∧
    (emailLocalLongErr ∈ (validateEmail raw).errors ↔ 64 < (localPartOf (emailNormalize raw)).length) :=
  emailCore_errors_iff (emailNormalize raw)

/-! ### Claim C10: email splitting is total; no `@` means the whole string
is the local part -/

theorem splitOnChar_no_sep (sep : Char) (l : List Char)
    (h : ∀ c ∈ l, c ≠ sep) : splitOnChar sep l = [l] := by
  induction l with
  | nil => rfl
  | cons c rest ih =>
    have hrec := ih (fun d hd => h d (List.mem_cons_of_mem _ hd))
    simp [splitOnChar, hrec, h c (List.mem_cons_self c rest)]

/-- Claim C10.  `validateEmail` is a total function; when the normalized
input contains no `@`, the split's first component — the local part — is the
whole string, so an input longer than 64 characters with no `@` collects
both the structural-format error and the local-part-length error. -/
theorem email_no_at_total (raw : String)
    (hat : ∀ c ∈ emailNormalize raw, c ≠ '@')
    (hlen : 64 < (emailNormalize raw).length) :
    localPartOf (emailNormalize raw) = emailNormalize raw ∧
    emailFormatErr ∈ (validateEmail raw).errors ∧
    emailLocalLongErr ∈ (validateEmail raw).errors := by
  have hsplit := splitOnChar_no_sep '@' (emailNormalize raw) hat
  have hlp : localPartOf (emailNormalize raw) = emailNormalize raw := by
    simp [localPartOf, hsplit]
  have hre : emailRegexMatch (emailNormalize raw) = false := by
    simp [emailRegexMatch, hsplit]
  refine ⟨hlp, ?_, ?_⟩
  · exact (emailCore_errors_iff (emailNormalize raw)).2.2.1.mpr hre
  · refine (emailCore_errors_iff (emailNormalize raw)).2.2.2.mpr ?_
    rw [hlp]
    exact hlen

theorem email_no_at_total_witness :
    localPartOf (emailNormalize "aaaaaaaaaaaaaaaaaaaaaaaaaaaaaaaaaaaaaaaaaaaaaaaaaaaaaaaaaaaaaaaaa")
        = emailNormalize "aaaaaaaaaaaaaaaaaaaaaaaaaaaaaaaaaaaaaaaaaaaaaaaaaaaaaaaaaaaaaaaaa" ∧
    emailFormatErr ∈ (validateEmail "aaaaaaaaaaaaaaaaaaaaaaaaaaaaaaaaaaaaaaaaaaaaaaaaaaaaaaaaaaaaaaaaa").errors ∧
    emailLocalLongErr ∈ (validateEmail "aaaaaaaaaaaaaaaaaaaaaaaaaaaaaaaaaaaaaaaaaaaaaaaaaaaaaaaaaaaaaaaaa").errors :=
  email_no_at_total "aaaaaaaaaaaaaaaaaaaaaaaaaaaaaaaaaaaaaaaaaaaaaaaaaaaaaaaaaaaaaaaaa"
    (by decide) (by decide)

/-! ### Claim C9: the consecutive-repetition check -/

theorem PassResult.errors_isEmpty_ite (E : List PassErr) (s n : Nat) :
    (if E.isEmpty then PassResult.valid s n else PassResult.invalid E s n).errors = E := by
  by_cases h : E.isEmpty = true
  · rw [if_pos h, List.isEmpty_iff.mp h]
    rfl
  · rw [if_neg h]
    rfl

theorem validatePassword_errors (raw : String) (p : PasswordPolicy) :
    (validatePassword raw p).errors =
      (if raw.data.length < (configOf p).minLength
        then [PassErr.tooShort (configOf p).minLength] else []) ++
      (if (configOf p).maxLength < raw.data.length
        then [PassErr.tooLong (configOf p).maxLength] else []) ++
      (if (configOf p).requireUpper && !hasUpper raw.data then [PassErr.noUpper] else []) ++
      (if (configOf p).requireLower && !hasLower raw.data then [PassErr.noLower] else []) ++
      (if (configOf p).requireNumber && !hasDigit raw.data then [PassErr.noNumber] else []) ++
      (if (configOf p).requireSymbol && !hasSymbolChar raw.data then [PassErr.noSymbol] else []) ++
      (if hasTripleRun raw.data then [PassErr.consecutive (configOf p).maxConsecutive] else []) ++
      (if (configOf p).forbidCommon
          && commonPasswords.contains (String.mk (raw.data.map Char.toLower))
        then [PassErr.commonPassword] else []) ++
      (if startsOrEndsWithSpace raw.data then [PassErr.edgeWhitespace] else []) := by
  simp only [validatePassword]
  exact PassResult.errors_isEmpty_ite _ _ _

theorem hasTripleRun_cons (a : Char) (t : List Char) (h : hasTripleRun t = true) :
    hasTripleRun (a :: t) = true := by
  match t with
  | [] => simp [hasTripleRun] at h
  | [b] => simp [hasTripleRun] at h
  | b :: c :: rest =>
    rw [show hasTripleRun (a :: b :: c :: rest)
        = ((!isLineTerminator a && a == b && b == c) || hasTripleRun (b :: c :: rest)) from rfl]
    simp [h]

theorem hasTripleRun_of_decomp (c : Char) (pre post : List Char)
    (hc : isLineTerminator c = false) :
    hasTripleRun (pre ++ c :: c :: c :: post) = true := by
  induction pre with
  | nil =>
    show hasTripleRun (c :: c :: c :: post) = true
    rw [show hasTripleRun (c :: c :: c :: post)
        = ((!isLineTerminator c && c == c && c == c) || hasTripleRun (c :: c :: post)) from rfl]
    simp [hc]
  | cons a pre' ih =>
    exact hasTripleRun_cons a _ ih

theorem hasTripleRun_exists (l : List Char) (h : hasTripleRun l = true) :
    ∃ c pre post, l = pre ++ c :: c :: c :: post ∧ isLineTerminator c = false := by
  induction l with
  | nil => simp [hasTripleRun] at h
  | cons a t ih =>
    match t, ih with
    | [], _ => simp [hasTripleRun] at h
    | [b], _ => simp [hasTripleRun] at h
    | b :: c :: rest, ih =>
      rw [show hasTripleRun (a :: b :: c :: rest)
          = ((!isLineTerminator a && a == b && b == c) || hasTripleRun (b :: c :: rest)) from rfl] at h
      rcases (Bool.or_eq_true _ _).mp h with h1 | h2
      · obtain ⟨⟨hlt, hab⟩, hbc⟩ := by
          simpa [Bool.and_eq_true, beq_iff_eq] using h1
        refine ⟨a, [], rest, ?_, by simpa using hlt⟩
        simp [← hab, ← hbc]
      · obtain ⟨x, pre, post, heq, hx⟩ := ih h2
        exact ⟨x, a :: pre, post, by simp [heq], hx⟩

theorem hasTripleRun_iff (l : List Char) :
    hasTripleRun l = true
      ↔ ∃ c pre post, l = pre ++ c :: c :: c :: post ∧ isLineTerminator c = false := by
  constructor
  · exact hasTripleRun_exists l
  · rintro ⟨c, pre, post, rfl, hc⟩
    exact hasTripleRun_of_decomp c pre post hc

/-- Claim C9, amended.  The consecutive-repetition violation is reported
exactly when the password contains a run of three or more identical
characters that are not line terminators (the `.` of the source pattern
`(.)\1{2,}` does not match line terminators); the policy's
`maxConsecutive` value only parametrises the recorded violation (the
interpolated message), never the fixed threshold of 3. -/
theorem password_consecutive_amended (raw : String) (p : PasswordPolicy) :
    (PassErr.consecutive ((configOf p).maxConsecutive) ∈ (validatePassword raw p).errors
      ↔ ∃ c pre post, raw.data = pre ++ c :: c :: c :: post ∧ isLineTerminator c = false) ∧
    (∀ n, PassErr.consecutive n ∈ (validatePassword raw p).errors
      → n = (configOf p).maxConsecutive) := by
  rw [validatePassword_errors]
  constructor
  · rw [← hasTripleRun_iff]
    by_cases h : hasTripleRun raw.data <;>
      simp [h, List.mem_append]
  · intro n
    by_cases h : hasTripleRun raw.data <;>
      simp [h, List.mem_append]

/-- Claim C9, counterexample.  The password `"Aa1!\n\n\nxy"` contains a run
of three identical consecutive characters (the three newlines), yet its
validation result carries no consecutive-repetition violation, because the
source pattern's `.` does not match line terminators. -/
theorem password_consecutive_counterexample :
    ("Aa1!\n\n\nxy" : String).data
        = "Aa1!".data ++ '\n' :: '\n' :: '\n' :: "xy".data ∧
    (validatePassword "Aa1!\n\n\nxy" {}).errors.all (fun e => !isConsecutiveErr e) = true := by
  constructor <;> decide

/-! ### Claim C4: the 14-digit scheme follows the spec's weighted rule -/

theorem charToDigit_digitChar (n : Nat) (h : n < 10) :
    charToDigit (digitChar n) = n := by
  interval_cases n <;> rfl

theorem calcCheckDigitW_lt_ten (base : List Char) (factors : List Nat) :
    calcCheckDigitW base factors < 10 := by
  simp only [calcCheckDigitW]
  split <;> omega

theorem calcCheckDigitW_eq_spec (base : List Char) (factors : List Nat) :
    calcCheckDigitW base factors = weightedCheckDigit (base.map charToDigit) factors := by
  suffices h : ((base.zip factors).map (fun p => charToDigit p.1 * p.2)).sum
      = (((base.map charToDigit).zip factors).map (fun p => p.1 * p.2)).sum by
    simp only [calcCheckDigitW, weightedCheckDigit, h]
  induction base generalizing factors with
  | nil => simp
  | cons c rest ih =>
    cases factors with
    | nil => simp
    | cons f fs => simp [ih]

/-- Claim C4.  On a 14-digit, non-repeated digit sequence, `validateCNPJ`
computes its two check digits exactly as the spec's `weightedCheckDigit`
rule with weight vectors {5,4,3,2,9,8,7,6,5,4,3,2} and
{6,5,4,3,2,9,8,7,6,5,4,3,2} (the second over the 12-digit base plus the
first computed digit), returning `Valid` with the `XX.XXX.XXX/XXXX-YY`
normalized form when both match the trailing digits and the
check-digit-mismatch error otherwise. -/
theorem cnpj_checkdigit_scheme (raw : String)
    (hlen : (onlyDigits raw).length = 14)
    (hrep : isRepeated (onlyDigits raw) 14 = false) :
    validateCNPJ raw =
      if charToDigit ((onlyDigits raw).getD 12 '0')
            = cnpjSpecDigit1 ((onlyDigits raw).map charToDigit)
          ∧ charToDigit ((onlyDigits raw).getD 13 '0')
            = cnpjSpecDigit2 ((onlyDigits raw).map charToDigit)
      then IdResult.valid (cnpjNormalize (onlyDigits raw)) (onlyDigits raw)
      else IdResult.invalid [checkDigitErr] := by
  set digits := onlyDigits raw with hdig
  have hfd : calcCheckDigitW (digits.take 12) cnpjFactors1
      = cnpjSpecDigit1 (digits.map charToDigit) := by
    rw [calcCheckDigitW_eq_spec, cnpjSpecDigit1, List.map_take]
    rfl
  have hlt : calcCheckDigitW (digits.take 12) cnpjFactors1 < 10 :=
    calcCheckDigitW_lt_ten _ _
  have hsd : calcCheckDigitW
        (digits.take 12 ++ [digitChar (calcCheckDigitW (digits.take 12) cnpjFactors1)])
        cnpjFactors2
      = cnpjSpecDigit2 (digits.map charToDigit) := by
    rw [calcCheckDigitW_eq_spec, List.map_append, List.map_take, cnpjSpecDigit2]
    simp only [List.map_cons, List.map_nil]
    rw [charToDigit_digitChar _ hlt, hfd]
    rfl
  rw [validateCNPJ, ← hdig]
  simp only [cnpjCore, hlen, hrep, ne_eq, not_true_eq_false, if_false,
    if_neg Bool.false_ne_true, List.nil_append, List.isEmpty_nil, if_true]
  rw [hsd, hfd]
  exact if_congr ⟨fun h => ⟨h.1.symm, h.2.symm⟩, fun h => ⟨h.1.symm, h.2.symm⟩⟩ rfl rfl

theorem cnpj_checkdigit_scheme_witness :
    validateCNPJ "11.222.333/0001-81"
      = IdResult.valid "11.222.333/0001-81" "11222333000181".data := by
  have h := cnpj_checkdigit_scheme "11.222.333/0001-81" (by decide) (by decide)
  rw [h]
  decide

/-! ### Claim C3: the 11-digit scheme and check-digit flips -/

theorem charToDigit_lt_of_isDigit (c : Char) (h : isDigitChar c = true) :
    charToDigit c < 10 := by
  simp only [isDigitChar, Bool.and_eq_true, decide_eq_true_eq] at h
  simp only [charToDigit]
  omega

theorem digitChar_isDigit (n : Nat) (h : n < 10) :
    isDigitChar (digitChar n) = true := by
  interval_cases n <;> decide

theorem calcCheckDigit_lt_ten (base : List Char) (f : Nat) :
    calcCheckDigit base f < 10 := by
  simp only [calcCheckDigit]
  split <;> omega

theorem weightedSumDesc_eq_zip (l : List Char) (f : Nat) :
    weightedSumDesc l f
      = ((l.zip ((List.range l.length).map (fun i => f - i))).map
          (fun p => charToDigit p.1 * p.2)).sum := by
  induction l generalizing f with
  | nil => simp [weightedSumDesc]
  | cons c rest ih =>
    have hw : (List.range (c :: rest).length).map (fun i => f - i)
        = f :: (List.range rest.length).map (fun i => f - 1 - i) := by
      rw [show (c :: rest).length = rest.length + 1 from rfl, List.range_succ_eq_map]
      simp only [List.map_cons, Nat.sub_zero, List.map_map]
      congr 1
      apply List.map_congr_left
      intro i _
      simp only [Function.comp_apply]
      omega
    rw [hw, List.zip_cons_cons, List.map_cons, List.sum_cons, weightedSumDesc, ih (f - 1)]

theorem zip_map_charToDigit (l : List Char) (w : List Nat) :
    (((l.map charToDigit).zip w).map (fun p => p.1 * p.2)).sum
      = ((l.zip w).map (fun p => charToDigit p.1 * p.2)).sum := by
  induction l generalizing w with
  | nil => simp
  | cons c rest ih =>
    cases w with
    | nil => simp
    | cons f fs => simp [ih]

theorem calcCheckDigit_eq_spec (base : List Char) (f : Nat) :
    calcCheckDigit base f
      = weightedCheckDigit (base.map charToDigit)
          ((List.range base.length).map (fun i => f - i)) := by
  simp only [calcCheckDigit, weightedCheckDigit]
  rw [weightedSumDesc_eq_zip, zip_map_charToDigit]

theorem weightedCheckDigit_rep9 (d : Nat) (hd : d < 10) :
    weightedCheckDigit (List.replicate 9 d) [10, 9, 8, 7, 6, 5, 4, 3, 2] = d := by
  rw [show List.replicate 9 d = [d, d, d, d, d, d, d, d, d] from rfl]
  interval_cases d <;> decide

theorem weightedCheckDigit_rep10 (d : Nat) (hd : d < 10) :
    weightedCheckDigit (List.replicate 9 d ++ [d]) [11, 10, 9, 8, 7, 6, 5, 4, 3, 2] = d := by
  rw [show List.replicate 9 d ++ [d] = [d, d, d, d, d, d, d, d, d, d] from rfl]
  interval_cases d <;> decide

theorem onlyDigits_mk (l : List Char) (h : ∀ c ∈ l, isDigitChar c = true) :
    onlyDigits (String.mk l) = l := by
  simp only [onlyDigits]
  exact List.filter_eq_self.mpr h

theorem all_isDigit_set (l : List Char) (i : Nat) (a : Char)
    (hl : ∀ c ∈ l, isDigitChar c = true) (ha : isDigitChar a = true) :
    ∀ c ∈ l.set i a, isDigitChar c = true := by
  intro c hc
  rcases List.mem_or_eq_of_mem_set hc with h | rfl
  · exact hl c h
  · exact ha

theorem take_set_of_le (l : List Char) (n i : Nat) (a : Char) (h : n ≤ i) :
    (l.set i a).take n = l.take n := by
  induction l generalizing n i with
  | nil => simp
  | cons c rest ih =>
    cases i with
    | zero =>
      have hn : n = 0 := by omega
      simp [hn]
    | succ j =>
      cases n with
      | zero => simp
      | succ m =>
        show c :: ((rest.set j a).take m) = c :: (rest.take m)
        rw [ih m j (by omega)]

theorem getD_set_self (l : List Char) (i : Nat) (a d : Char) (h : i < l.length) :
    (l.set i a).getD i d = a := by
  induction l generalizing i with
  | nil => simp at h
  | cons c rest ih =>
    cases i with
    | zero => rfl
    | succ j =>
      show (rest.set j a).getD j d = a
      exact ih j (by simpa using h)

theorem getD_set_ne (l : List Char) (i j : Nat) (a d : Char) (h : i ≠ j) :
    (l.set i a).getD j d = l.getD j d := by
  induction l generalizing i j with
  | nil => rfl
  | cons c rest ih =>
    cases i with
    | zero =>
      cases j with
      | zero => omega
      | succ k => rfl
    | succ i' =>
      cases j with
      | zero => rfl
      | succ k =>
        show (rest.set i' a).getD k d = rest.getD k d
        exact ih i' k (by omega)

theorem getD_mem (l : List Char) (i : Nat) (d : Char) (h : i < l.length) :
    l.getD i d ∈ l := by
  induction l generalizing i with
  | nil => simp at h
  | cons c rest ih =>
    cases i with
    | zero => exact List.mem_cons_self _ _
    | succ j =>
      show rest.getD j d ∈ c :: rest
      exact List.mem_cons_of_mem _ (ih j (by simpa using h))

/-- Claim C3.  On an 11-digit, non-repeated digit sequence whose two trailing
digits equal the spec's weighted-sum-mod-11 check digits, `validateCPF`
returns `Valid`; and changing either trailing digit to any other decimal
digit yields exactly the check-digit-mismatch error. -/
theorem cpf_checkdigit_claim (raw : String)
    (hlen : (onlyDigits raw).length = 11)
    (hrep : isRepeated (onlyDigits raw) 11 = false)
    (hd1 : charToDigit ((onlyDigits raw).getD 9 '0')
        = cpfSpecDigit1 ((onlyDigits raw).map charToDigit))
    (hd2 : charToDigit ((onlyDigits raw).getD 10 '0')
        = cpfSpecDigit2 ((onlyDigits raw).map charToDigit)) :
    validateCPF raw = IdResult.valid (cpfNormalize (onlyDigits raw)) (onlyDigits raw)
    ∧ ∀ pos y, (pos = 9 ∨ pos = 10) → y < 10
      → y ≠ charToDigit ((onlyDigits raw).getD pos '0')
      → validateCPF (String.mk ((onlyDigits raw).set pos (digitChar y)))
          = IdResult.invalid [checkDigitErr] := by
  have hall : ∀ c ∈ onlyDigits raw, isDigitChar c = true := onlyDigits_all raw
  set digits := onlyDigits raw with hdig
  have h9 : (digits.take 9).length = 9 := by
    rw [List.length_take, hlen]
    omega
  have hfd : calcCheckDigit (digits.take 9) 10 = cpfSpecDigit1 (digits.map charToDigit) := by
    rw [calcCheckDigit_eq_spec, h9, List.map_take, cpfSpecDigit1]
    rw [show (List.range 9).map (fun i => (10 : Nat) - i)
        = [10, 9, 8, 7, 6, 5, 4, 3, 2] from by decide]
  have hflt : calcCheckDigit (digits.take 9) 10 < 10 := calcCheckDigit_lt_ten _ _
  have hsd : calcCheckDigit
        (digits.take 9 ++ [digitChar (calcCheckDigit (digits.take 9) 10)]) 11
      = cpfSpecDigit2 (digits.map charToDigit) := by
    have hlen10 :
        (digits.take 9 ++ [digitChar (calcCheckDigit (digits.take 9) 10)]).length = 10 := by
      simp [h9]
    rw [calcCheckDigit_eq_spec, hlen10, List.map_append, List.map_take]
    simp only [List.map_cons, List.map_nil]
    rw [charToDigit_digitChar _ hflt, hfd, cpfSpecDigit2]
    rw [show (List.range 10).map (fun i => (11 : Nat) - i)
        = [11, 10, 9, 8, 7, 6, 5, 4, 3, 2] from by decide]
  constructor
  · simp only [validateCPF]
    rw [← hdig]
    simp only [cpfCore, hlen, hrep, ne_eq, not_true_eq_false, if_false,
      if_neg Bool.false_ne_true, List.nil_append, List.isEmpty_nil, if_true]
    rw [if_pos ⟨hfd.trans hd1.symm, hsd.trans hd2.symm⟩]
  · intro pos y hpos hy hne
    have hposlt : pos < digits.length := by
      rcases hpos with rfl | rfl <;> omega
    have hally : ∀ c ∈ digits.set pos (digitChar y), isDigitChar c = true :=
      all_isDigit_set digits pos (digitChar y) hall (digitChar_isDigit y hy)
    have hOD : onlyDigits (String.mk (digits.set pos (digitChar y)))
        = digits.set pos (digitChar y) := onlyDigits_mk _ hally
    have hlenl : (digits.set pos (digitChar y)).length = 11 := by
      rw [List.length_set, hlen]
    have htake : (digits.set pos (digitChar y)).take 9 = digits.take 9 :=
      take_set_of_le digits 9 pos (digitChar y) (by rcases hpos with rfl | rfl <;> omega)
    have hget : (digits.set pos (digitChar y)).getD pos '0' = digitChar y :=
      getD_set_self digits pos (digitChar y) '0' hposlt
    have hrepl : isRepeated (digits.set pos (digitChar y)) 11 = false := by
      by_contra hcon
      rw [Bool.not_eq_false] at hcon
      obtain ⟨c0, tl, hL⟩ := List.exists_cons_of_ne_nil
        (show digits.set pos (digitChar y) ≠ [] by
          intro hnil
          rw [hnil] at hlenl
          simp at hlenl)
      rw [hL] at hcon
      simp only [isRepeated, Bool.and_eq_true, decide_eq_true_eq, List.all_eq_true,
        beq_iff_eq] at hcon
      obtain ⟨-, hallc0⟩ := hcon
      have hball : ∀ x ∈ digits.set pos (digitChar y), x = c0 := by
        intro x hx
        rw [hL] at hx
        rcases List.mem_cons.mp hx with rfl | hx2
        · rfl
        · exact hallc0 x hx2
      have hyc0 : digitChar y = c0 := by
        rw [← hget]
        refine hball _ (getD_mem _ _ _ ?_)
        rw [hlenl]
        rcases hpos with rfl | rfl <;> omega
      have hyd : y = charToDigit c0 := by
        rw [← hyc0, charToDigit_digitChar _ hy]
      have htake9 : digits.take 9 = List.replicate 9 c0 := by
        refine List.eq_replicate_iff.mpr ⟨h9, ?_⟩
        intro b hb
        refine hball b ?_
        rw [← htake] at hb
        exact List.take_subset _ _ hb
      have hdlt : charToDigit c0 < 10 := by
        refine charToDigit_lt_of_isDigit c0 (hally c0 ?_)
        rw [hL]
        exact List.mem_cons_self _ _
      have hspec1 : cpfSpecDigit1 (digits.map charToDigit) = charToDigit c0 := by
        rw [cpfSpecDigit1, ← List.map_take, htake9, List.map_replicate]
        exact weightedCheckDigit_rep9 _ hdlt
      rcases hpos with rfl | rfl
      · exact hne (by rw [hd1, hspec1]; exact hyd)
      · have hspec2 : cpfSpecDigit2 (digits.map charToDigit) = charToDigit c0 := by
          rw [cpfSpecDigit2, ← List.map_take, htake9, List.map_replicate, hspec1]
          exact weightedCheckDigit_rep10 _ hdlt
        exact hne (by rw [hd2, hspec2]; exact hyd)
    simp only [validateCPF]
    rw [hOD]
    simp only [cpfCore, hlenl, hrepl, ne_eq, not_true_eq_false, if_false,
      if_neg Bool.false_ne_true, List.nil_append, List.isEmpty_nil, if_true]
    rcases hpos with rfl | rfl
    · have hno : ¬ (calcCheckDigit ((digits.set 9 (digitChar y)).take 9) 10
            = charToDigit ((digits.set 9 (digitChar y)).getD 9 '0')
          ∧ calcCheckDigit ((digits.set 9 (digitChar y)).take 9
              ++ [digitChar (calcCheckDigit ((digits.set 9 (digitChar y)).take 9) 10)]) 11
            = charToDigit ((digits.set 9 (digitChar y)).getD 10 '0')) := by
        rintro ⟨ha, -⟩
        rw [htake, hget, hfd, charToDigit_digitChar _ hy] at ha
        exact hne (by rw [hd1, ← ha])
      exact if_neg hno
    · have hno : ¬ (calcCheckDigit ((digits.set 10 (digitChar y)).take 9) 10
            = charToDigit ((digits.set 10 (digitChar y)).getD 9 '0')
          ∧ calcCheckDigit ((digits.set 10 (digitChar y)).take 9
              ++ [digitChar (calcCheckDigit ((digits.set 10 (digitChar y)).take 9) 10)]) 11
            = charToDigit ((digits.set 10 (digitChar y)).getD 10 '0')) := by
        rintro ⟨-, hb⟩
        rw [htake, hget, hsd, charToDigit_digitChar _ hy] at hb
        exact hne (by rw [hd2, ← hb])
      exact if_neg hno

theorem cpf_checkdigit_claim_witness :
    validateCPF "529.982.247-25" = IdResult.valid "529.982.247-25" "52998224725".data ∧
    validateCPF (String.mk ((onlyDigits "529.982.247-25").set 10 (digitChar 6)))
      = IdResult.invalid [checkDigitErr] := by
  have h := cpf_checkdigit_claim "529.982.247-25" (by decide) (by decide)
    (by decide) (by decide)
  refine ⟨?_, h.2 10 6 (Or.inr rfl) (by decide) (by decide)⟩
  rw [h.1]
  decide
